import Mathlib

/-
Shallow embedding of the tezedge storage-backend core:
  - storage/src/storage_backend.rs (StorageBackend trait, StorageBackendStats)
  - tezos/new_context/src/kv_store/readonly_ipc.rs (ReadonlyIpcBackend,
    ContextRequest/ContextResponse, IpcContextClient, IpcContextServer)
Rust machine integers (usize) are modelled as Nat with wrap-around at 2 ^ 64
where overflow matters; fallible operations return Except; in-place mutation
becomes explicit state passing.
-/

set_option autoImplicit false

/-- Modelled from the spec: EntryHash is a fixed-length cryptographic digest
used as a storage key (the hash module is outside src); it is represented
abstractly, with equality as byte equality. -/
abbrev EntryHash := Nat

/-- ContextValue from merkle_storage: an opaque variable-length byte sequence. -/
abbrev ContextValue := List Nat

/-- Modelled from the spec: the byte width of the fixed-length EntryHash digest,
standing for mem size_of EntryHash in the source. -/
def size_of_EntryHash : Nat := 32

/-- Model of std HashSet of EntryHash as used by the storage backend: the
elements together with the allocated capacity (capacity is at least the
element count, as in the Rust collection). -/
structure HashSetModel where
  elems : List EntryHash
  capacity : Nat
  cap_ge : elems.length ≤ capacity

/-- Wrap-around modulus of usize arithmetic (64-bit target). -/
def USIZE : Nat := 2 ^ 64

/-- StorageBackendStats from storage_backend.rs: three usize byte counters. -/
structure StorageBackendStats where
  key_bytes : Nat
  value_bytes : Nat
  reused_keys_bytes : Nat
deriving DecidableEq, Repr

namespace StorageBackendStats

/-- Field-wise addition of stats, from the Add impl in storage_backend.rs;
usize addition wraps at USIZE. -/
def add (a b : StorageBackendStats) : StorageBackendStats where
  key_bytes := (a.key_bytes + b.key_bytes) % USIZE
  value_bytes := (a.value_bytes + b.value_bytes) % USIZE
  reused_keys_bytes := (a.reused_keys_bytes + b.reused_keys_bytes) % USIZE

/-- Field-wise subtraction of stats, from the Sub impl in storage_backend.rs;
usize subtraction wraps at USIZE (meaningful only when each subtrahend field
is at most the corresponding minuend field). -/
def sub (a b : StorageBackendStats) : StorageBackendStats where
  key_bytes := (a.key_bytes + USIZE - b.key_bytes) % USIZE
  value_bytes := (a.value_bytes + USIZE - b.value_bytes) % USIZE
  reused_keys_bytes := (a.reused_keys_bytes + USIZE - b.reused_keys_bytes) % USIZE

/-- update_reused_keys from storage_backend.rs: sets reused_keys_bytes to the
capacity of the given set times the byte size of an EntryHash. -/
def update_reused_keys (self : StorageBackendStats) (list : HashSetModel) :
    StorageBackendStats :=
  { self with reused_keys_bytes := list.capacity * size_of_EntryHash }

/-- total_as_bytes from storage_backend.rs. -/
def total_as_bytes (self : StorageBackendStats) : Nat :=
  self.key_bytes + self.value_bytes + self.reused_keys_bytes

end StorageBackendStats

/-- StorageBackendError from storage_backend.rs; external payload types are
modelled as strings. -/
inductive StorageBackendError where
  | RocksDBError (error : String)
  | MissingColumnFamily (name : String)
  | BackendError
  | SledDBError (error : String)
  | GuardPoison (error : String)
  | SerializationError (error : String)
  | DBError (error : String)
  | HashConversionError (error : String)
deriving DecidableEq, Repr

namespace StorageBackend

/-- put_batch default method of the StorageBackend trait: iterates the batch in
list order, calling put on each entry, propagating the first error with the
question-mark operator. The state threading makes the in-place mutation of the
Rust self explicit: put returns the updated backend state next to its result. -/
def put_batch {σ E : Type} (put : σ → EntryHash → ContextValue → σ × Except E Bool) :
    σ → List (EntryHash × ContextValue) → σ × Except E Unit
  | s, [] => (s, .ok ())
  | s, (k, v) :: rest =>
    match put s k v with
    | (s1, .ok _) => put_batch put s1 rest
    | (s1, .error e) => (s1, .error e)

/-- Mirror of the wording of the spec: calling put on each entry one at a time
in list order, keeping only the state effects. -/
def applyPuts {σ E : Type} (put : σ → EntryHash → ContextValue → σ × Except E Bool)
    (s : σ) (batch : List (EntryHash × ContextValue)) : σ :=
  batch.foldl (fun t kv => (put t kv.1 kv.2).1) s

/-- retain default method of the StorageBackend trait: body is Ok(()). -/
def retain {σ : Type} (s : σ) (_pred : HashSetModel) : σ × Except StorageBackendError Unit :=
  (s, .ok ())

/-- mark_reused default method of the StorageBackend trait: empty body. -/
def mark_reused {σ : Type} (s : σ) (_key : EntryHash) : σ := s

/-- start_new_cycle default method of the StorageBackend trait: empty body. -/
def start_new_cycle {σ : Type} (s : σ) (_last_commit_hash : Option EntryHash) : σ := s

/-- wait_for_gc_finish default method of the StorageBackend trait: empty body,
returns immediately. -/
def wait_for_gc_finish {σ : Type} (s : σ) : σ := s

end StorageBackend

/-
IPC context protocol from readonly_ipc.rs.
-/

/-- ContextRequest from readonly_ipc.rs: request sent by a readonly protocol
runner to the writable protocol runner. -/
inductive ContextRequest where
  | GetEntry (hash : EntryHash)
  | ContainsEntry (hash : EntryHash)
  | ShutdownCall
deriving DecidableEq, Repr

instance {ε α : Type} [DecidableEq ε] [DecidableEq α] : DecidableEq (Except ε α) :=
  fun x y =>
    match x, y with
    | .ok a, .ok b =>
      if h : a = b then .isTrue (by rw [h]) else .isFalse (by simp [h])
    | .error a, .error b =>
      if h : a = b then .isTrue (by rw [h]) else .isFalse (by simp [h])
    | .ok _, .error _ => .isFalse (by simp)
    | .error _, .ok _ => .isFalse (by simp)

/-- ContextResponse from readonly_ipc.rs: response to a ContextRequest; the
engine-side result is an Except with a String error payload, mirroring the
Result with String error in the source. -/
inductive ContextResponse where
  | GetEntryResponse (result : Except String (Option ContextValue))
  | ContainsEntryResponse (result : Except String Bool)
  | ShutdownResult
deriving DecidableEq, Repr

/-- IntoStaticStr derive on ContextResponse: the variant name as a string. -/
def variantName : ContextResponse → String
  | .GetEntryResponse _ => "GetEntryResponse"
  | .ContainsEntryResponse _ => "ContainsEntryResponse"
  | .ShutdownResult => "ShutdownResult"

/-- IpcError from the ipc crate (outside src), modelled as an opaque message. -/
structure IpcError where
  message : String
deriving DecidableEq, Repr

/-- ContextError from readonly_ipc.rs. -/
inductive ContextError where
  | GetEntryError (reason : String)
  | ContainsEntryError (reason : String)
deriving DecidableEq, Repr

/-- ContextServiceError from readonly_ipc.rs: errors surfaced to the reader,
with distinct constructors for transport faults, engine-side context faults,
protocol violations and lock poisoning. -/
inductive ContextServiceError where
  | IpcError (reason : IpcError)
  | ContextError (reason : ContextError)
  | UnexpectedMessage (message : String)
  | LockPoisonError (message : String)
deriving DecidableEq, Repr

namespace IpcContextClient

/-- TIMEOUT constant of IpcContextClient, in seconds. -/
def TIMEOUT : Nat := 30

/-- get_entry of IpcContextClient, as a function of the transport outcomes:
the send result and the receive result (both produced by the ipc channel).
The question-mark operator lifts an IpcError into ContextServiceError.IpcError;
an engine-side error payload becomes ContextError.GetEntryError; a response of
any other variant becomes UnexpectedMessage with the variant name. -/
def get_entry (sendResult : Except IpcError Unit)
    (recvResult : Except IpcError ContextResponse) :
    Except ContextServiceError (Option ContextValue) :=
  match sendResult with
  | .error e => .error (.IpcError e)
  | .ok () =>
    match recvResult with
    | .error e => .error (.IpcError e)
    | .ok (.GetEntryResponse result) =>
      match result with
      | .ok v => .ok v
      | .error err => .error (.ContextError (.GetEntryError err))
    | .ok message => .error (.UnexpectedMessage (variantName message))

/-- contains_entry of IpcContextClient, same pattern as get_entry for the
existence check. -/
def contains_entry (sendResult : Except IpcError Unit)
    (recvResult : Except IpcError ContextResponse) :
    Except ContextServiceError Bool :=
  match sendResult with
  | .error e => .error (.IpcError e)
  | .ok () =>
    match recvResult with
    | .error e => .error (.IpcError e)
    | .ok (.ContainsEntryResponse result) =>
      match result with
      | .ok b => .ok b
      | .error err => .error (.ContextError (.ContainsEntryError err))
    | .ok message => .error (.UnexpectedMessage (variantName message))

end IpcContextClient

/-- Model of the writer-process context index queried by the server loop
(crate ffi get_context_index, outside src): the two read operations, each
fallible with a String error. -/
structure ContextIndex where
  find_entry_bytes : EntryHash → Except String (Option ContextValue)
  index_contains : EntryHash → Except String Bool

/-- The response the server computes for a single request, resolving it
against the in-process index of the writer. -/
def respond (idx : ContextIndex) : ContextRequest → ContextResponse
  | .GetEntry hash => .GetEntryResponse (idx.find_entry_bytes hash)
  | .ContainsEntry hash => .ContainsEntryResponse (idx.index_contains hash)
  | .ShutdownCall => .ShutdownResult

/-- How the server loop of process_context_requests ended. -/
inductive ServerExit where
  /-- ShutdownCall was received: the loop sent ShutdownResult, broke out and
  the function returned Ok. -/
  | shutdownOk
  /-- The modelled incoming stream is exhausted: the loop is still blocked on
  the next receive. -/
  | awaitingNext
deriving DecidableEq, Repr

namespace IpcContextServer

/-- process_context_requests of IpcContextServer over a stream of incoming
requests: each GetEntry or ContainsEntry is answered with exactly one response
resolved against the in-process index; on ShutdownCall the loop sends
ShutdownResult and exits, ignoring anything after it. -/
def process_context_requests (idx : ContextIndex) :
    List ContextRequest → List ContextResponse × ServerExit
  | [] => ([], .awaitingNext)
  | .GetEntry hash :: rest =>
    let tail := process_context_requests idx rest
    (.GetEntryResponse (idx.find_entry_bytes hash) :: tail.1, tail.2)
  | .ContainsEntry hash :: rest =>
    let tail := process_context_requests idx rest
    (.ContainsEntryResponse (idx.index_contains hash) :: tail.1, tail.2)
  | .ShutdownCall :: _ => ([.ShutdownResult], .shutdownOk)

end IpcContextServer

/-- Matching of a response variant to its request variant. -/
def matchesVariant : ContextRequest → ContextResponse → Bool
  | .GetEntry _, .GetEntryResponse _ => true
  | .ContainsEntry _, .ContainsEntryResponse _ => true
  | .ShutdownCall, .ShutdownResult => true
  | _, _ => false

/-
Timing model of the bounded receive and of connection establishment.
All durations are in seconds.
-/

namespace IpcContextListener

/-- IO_TIMEOUT constant of IpcContextListener, in seconds. -/
def IO_TIMEOUT : Nat := 10

end IpcContextListener

/-- Modelled from the spec: the ipc channel try_receive (the ipc crate is
outside src) splits the overall read deadline into repeated attempts, each
capped at the per-attempt timeout: a run of full attempts of the cap duration
followed by one shorter attempt for the remainder of the deadline. -/
def attemptDurations (overall cap : Nat) : List Nat :=
  List.replicate (overall / cap) cap ++
    (if overall % cap = 0 then [] else [overall % cap])

/-- Runs the receive attempts in order against a writer that becomes
responsive at the given arrival time (none when the writer never responds):
returns whether a response was received, and the time at which the call
returned. Each attempt either observes the response inside its window or
times out after its full duration and hands over to the next attempt. -/
def runAttempts (arrival : Option Nat) :
    List Nat → Nat → Bool × Nat
  | [], elapsed => (false, elapsed)
  | d :: rest, elapsed =>
    match arrival with
    | none => runAttempts none rest (elapsed + d)
    | some t =>
      if t ≤ elapsed + d then (true, max elapsed t)
      else runAttempts (some t) rest (elapsed + d)

/-- The IpcError produced when every receive attempt timed out. -/
def receiveTimeout : IpcError := { message := "receive timeout" }

/-- try_receive of the ipc receiver as called by the client: bounded by the
overall deadline, composed of attempts capped at the per-attempt timeout;
yields the pending response when the writer responded in time, a timeout
IpcError otherwise, together with the time spent waiting. -/
def try_receive (arrival : Option Nat) (resp : ContextResponse)
    (overall cap : Nat) : Except IpcError ContextResponse × Nat :=
  let run := runAttempts arrival (attemptDurations overall cap) 0
  (if run.1 then .ok resp else .error receiveTimeout, run.2)

/-- One whole get_entry call of IpcContextClient: send succeeds, then the
response is awaited with try_receive under TIMEOUT and IO_TIMEOUT, and the
outcome is mapped exactly as in the source. Returns the result and the time
spent waiting for the response. -/
def get_entry_call (arrival : Option Nat) (resp : ContextResponse) :
    Except ContextServiceError (Option ContextValue) × Nat :=
  let run := try_receive arrival resp IpcContextClient.TIMEOUT IpcContextListener.IO_TIMEOUT
  (IpcContextClient.get_entry (.ok ()) run.1, run.2)

/-- One whole contains_entry call of IpcContextClient, same timing model as
get_entry_call. -/
def contains_entry_call (arrival : Option Nat) (resp : ContextResponse) :
    Except ContextServiceError Bool × Nat :=
  let run := try_receive arrival resp IpcContextClient.TIMEOUT IpcContextListener.IO_TIMEOUT
  (IpcContextClient.contains_entry (.ok ()) run.1, run.2)

namespace IpcContextClient

/-- The IpcError produced when the connection cannot be established. -/
def connectionRefused : IpcError := { message := "connection refused" }

/-- The polling loop at the head of try_connect in readonly_ipc.rs: up to 5
iterations, each checking whether the socket path exists at the current time
and sleeping one second when it does not; returns the time at which the loop
exits. existsAt gives the existence of the socket path at each second. -/
def pollForSocket (existsAt : Nat → Bool) : Nat → Nat → Nat
  | 0, t => t
  | n + 1, t => if existsAt t then t else pollForSocket existsAt n (t + 1)

/-- Modelled from the spec: IpcClient connect (the ipc crate is outside src)
establishes the connection, failing with a connection error when the endpoint
does not exist at connection time or the handshake fails. -/
def clientConnect (existsAt : Nat → Bool) (handshakeOk : Bool) (t : Nat) :
    Except IpcError Unit :=
  if existsAt t && handshakeOk then .ok () else .error connectionRefused

/-- try_connect of IpcContextClient: poll for the socket path for up to 5
seconds, then attempt the connection; returns the connection outcome and the
time spent polling. -/
def try_connect (existsAt : Nat → Bool) (handshakeOk : Bool) :
    Except IpcError Unit × Nat :=
  let t := pollForSocket existsAt 5 0
  (clientConnect existsAt handshakeOk t, t)

end IpcContextClient

/-
ReadonlyIpcBackend from readonly_ipc.rs.
-/

/-- DBError from the persistent database module (outside src): only the
IpcAccessError variant is used by the readonly backend. -/
inductive DBError where
  | IpcAccessError (reason : ContextServiceError)
deriving DecidableEq, Repr

/-- ReadonlyIpcBackend from readonly_ipc.rs: holds only the IPC client,
modelled by the observable outcomes of its two remote read operations
(arbitrary functions, standing for every state of the remote writer store). -/
structure ReadonlyIpcBackend where
  client_get_entry : EntryHash → Except ContextServiceError (Option ContextValue)
  client_contains_entry : EntryHash → Except ContextServiceError Bool

namespace ReadonlyIpcBackend

/-- retain of the KeyValueStoreBackend impl for ReadonlyIpcBackend: the
context is readonly, body is Ok(()). -/
def retain (self : ReadonlyIpcBackend) (_predicate : EntryHash → Bool) :
    ReadonlyIpcBackend × Except DBError Unit :=
  (self, .ok ())

/-- put of the KeyValueStoreBackend impl for ReadonlyIpcBackend: the context
is readonly, body is Ok(()). -/
def put (self : ReadonlyIpcBackend) (_key : EntryHash) (_value : ContextValue) :
    ReadonlyIpcBackend × Except DBError Unit :=
  (self, .ok ())

/-- delete of the KeyValueStoreBackend impl for ReadonlyIpcBackend: the
context is readonly, body is Ok(()). -/
def delete (self : ReadonlyIpcBackend) (_key : EntryHash) :
    ReadonlyIpcBackend × Except DBError Unit :=
  (self, .ok ())

/-- merge of the KeyValueStoreBackend impl for ReadonlyIpcBackend: the
context is readonly, body is Ok(()). -/
def merge (self : ReadonlyIpcBackend) (_key : EntryHash) (_value : ContextValue) :
    ReadonlyIpcBackend × Except DBError Unit :=
  (self, .ok ())

/-- get of the KeyValueStoreBackend impl for ReadonlyIpcBackend: forwards to
the IPC client and wraps a failure into DBError.IpcAccessError. -/
def get (self : ReadonlyIpcBackend) (key : EntryHash) :
    Except DBError (Option ContextValue) :=
  (self.client_get_entry key).mapError (fun reason => DBError.IpcAccessError reason)

/-- contains of the KeyValueStoreBackend impl for ReadonlyIpcBackend:
forwards to the IPC client and wraps a failure into DBError.IpcAccessError. -/
def contains (self : ReadonlyIpcBackend) (key : EntryHash) :
    Except DBError Bool :=
  (self.client_contains_entry key).mapError (fun reason => DBError.IpcAccessError reason)

/-- write_batch of the KeyValueStoreBackend impl for ReadonlyIpcBackend: the
context is readonly, body is Ok(()). -/
def write_batch (self : ReadonlyIpcBackend)
    (_batch : List (EntryHash × ContextValue)) :
    ReadonlyIpcBackend × Except DBError Unit :=
  (self, .ok ())

/-- total_get_mem_usage of the KeyValueStoreBackend impl for
ReadonlyIpcBackend: body is Ok(0). -/
def total_get_mem_usage (_self : ReadonlyIpcBackend) : Except DBError Nat :=
  .ok 0

end ReadonlyIpcBackend

/-
Concrete sample instances used to evaluate the development on closed inputs.
-/

/-- A concrete writer-side index: every hash maps to the blob [1, 2, 3] and
the existence check reports false. -/
def sampleIndex : ContextIndex where
  find_entry_bytes := fun _ => .ok (some [1, 2, 3])
  index_contains := fun _ => .ok false

/-- A concrete fallible put on an association-list store: rejects key 0 with
an error and leaves the store untouched, prepends any other entry. -/
def samplePut (s : List (EntryHash × ContextValue)) (k : EntryHash) (v : ContextValue) :
    List (EntryHash × ContextValue) × Except String Bool :=
  if k = 0 then (s, .error "key rejected") else ((k, v) :: s, .ok true)

/-- A concrete hash set with two elements and capacity 4. -/
def sampleSetTwo : HashSetModel := ⟨[1, 2], 4, by decide⟩

/-- A concrete empty hash set with capacity 4. -/
def sampleSetEmpty : HashSetModel := ⟨[], 4, by decide⟩

/-
Helper lemmas.
-/

theorem usize_add_sub_cancel {x y : Nat} (h : x + y < USIZE) :
    ((x + y) % USIZE + USIZE - y) % USIZE = x := by
  rw [Nat.mod_eq_of_lt h]
  have hx : x < USIZE := lt_of_le_of_lt (Nat.le_add_right x y) h
  have hrw : x + y + USIZE - y = x + USIZE := by omega
  rw [hrw, Nat.add_mod_right, Nat.mod_eq_of_lt hx]

/-
Claim theorems.
-/

/-- C1: on the read-only proxy backend every mutating operation (put, delete,
merge, write_batch, retain) returns Ok and leaves the backend state unchanged,
for every key, value, batch and predicate. -/
theorem readonly_mutators_are_noops (b : ReadonlyIpcBackend) (key : EntryHash)
    (value : ContextValue) (batch : List (EntryHash × ContextValue))
    (predicate : EntryHash → Bool) :
    b.put key value = (b, .ok ())
  ∧ b.delete key = (b, .ok ())
  ∧ b.merge key value = (b, .ok ())
  ∧ b.write_batch batch = (b, .ok ())
  ∧ b.retain predicate = (b, .ok ()) :=
  ⟨rfl, rfl, rfl, rfl, rfl⟩

/-- C7: the GC extension default implementations are no-ops: retain returns Ok
and keeps the state, mark_reused, start_new_cycle and wait_for_gc_finish
return the state unchanged (wait_for_gc_finish returns immediately). -/
theorem gc_default_operations_are_noops {σ : Type} (s : σ) (pred : HashSetModel)
    (key : EntryHash) (last_commit_hash : Option EntryHash) :
    StorageBackend.retain s pred = (s, .ok ())
  ∧ StorageBackend.mark_reused s key = s
  ∧ StorageBackend.start_new_cycle s last_commit_hash = s
  ∧ StorageBackend.wait_for_gc_finish s = s :=
  ⟨rfl, rfl, rfl, rfl⟩

/-- C9: total_get_mem_usage of the read-only proxy backend returns Ok 0 for
every backend value, hence for every state of the remote writer store; it
never reports a real estimate and never fails. -/
theorem readonly_total_get_mem_usage_always_zero (b : ReadonlyIpcBackend) :
    b.total_get_mem_usage = .ok 0 :=
  rfl

/-- C8: for stats values a and b whose field-wise sums do not overflow the
usize width, (a + b) - b = a field-wise. -/
theorem stats_add_sub_cancel (a b : StorageBackendStats)
    (h1 : a.key_bytes + b.key_bytes < USIZE)
    (h2 : a.value_bytes + b.value_bytes < USIZE)
    (h3 : a.reused_keys_bytes + b.reused_keys_bytes < USIZE) :
    (a.add b).sub b = a := by
  cases a with
  | mk ka va ra =>
    cases b with
    | mk kb vb rb =>
      simp only [StorageBackendStats.add, StorageBackendStats.sub,
        StorageBackendStats.mk.injEq]
      exact ⟨usize_add_sub_cancel h1, usize_add_sub_cancel h2, usize_add_sub_cancel h3⟩

theorem stats_add_sub_cancel_witness :
    StorageBackendStats.sub (StorageBackendStats.add ⟨1, 2, 3⟩ ⟨4, 5, 6⟩) ⟨4, 5, 6⟩
      = (⟨1, 2, 3⟩ : StorageBackendStats) :=
  stats_add_sub_cancel ⟨1, 2, 3⟩ ⟨4, 5, 6⟩ (by norm_num [USIZE]) (by norm_num [USIZE])
    (by norm_num [USIZE])

/-- C10: update_reused_keys overwrites reused_keys_bytes with the capacity of
the given set times the byte size of an EntryHash, leaves key_bytes and
value_bytes unchanged, does not accumulate over repeated calls, and depends
only on the capacity of the set, not on its element count. -/
theorem update_reused_keys_overwrites (stats : StorageBackendStats)
    (list other : HashSetModel) :
    (stats.update_reused_keys list).reused_keys_bytes
        = list.capacity * size_of_EntryHash
  ∧ (stats.update_reused_keys list).key_bytes = stats.key_bytes
  ∧ (stats.update_reused_keys list).value_bytes = stats.value_bytes
  ∧ (stats.update_reused_keys list).update_reused_keys list
        = stats.update_reused_keys list
  ∧ (other.capacity = list.capacity →
      stats.update_reused_keys other = stats.update_reused_keys list) := by
  refine ⟨rfl, rfl, rfl, rfl, fun hcap => ?_⟩
  simp [StorageBackendStats.update_reused_keys, hcap]

theorem update_reused_keys_overwrites_witness :
    StorageBackendStats.update_reused_keys ⟨7, 8, 9⟩ sampleSetEmpty
      = StorageBackendStats.update_reused_keys ⟨7, 8, 9⟩ sampleSetTwo :=
  (update_reused_keys_overwrites ⟨7, 8, 9⟩ sampleSetTwo sampleSetEmpty).2.2.2.2 rfl

theorem put_batch_append_ok {σ E : Type}
    (put : σ → EntryHash → ContextValue → σ × Except E Bool)
    (xs : List (EntryHash × ContextValue)) :
    ∀ (s s1 : σ) (ys : List (EntryHash × ContextValue)),
      StorageBackend.put_batch put s xs = (s1, .ok ()) →
      StorageBackend.put_batch put s (xs ++ ys) = StorageBackend.put_batch put s1 ys := by
  induction xs with
  | nil =>
    intro s s1 ys h
    simp only [StorageBackend.put_batch] at h
    cases h
    simp
  | cons kv rest ih =>
    intro s s1 ys h
    obtain ⟨k, v⟩ := kv
    simp only [StorageBackend.put_batch, List.cons_append] at h ⊢
    cases hp : put s k v with
    | mk s2 r =>
      rw [hp] at h
      cases r with
      | ok flag => exact ih s2 s1 ys h
      | error e => simp at h

theorem put_batch_ok_state {σ E : Type}
    (put : σ → EntryHash → ContextValue → σ × Except E Bool)
    (xs : List (EntryHash × ContextValue)) :
    ∀ (s s1 : σ), StorageBackend.put_batch put s xs = (s1, .ok ()) →
      s1 = StorageBackend.applyPuts put s xs := by
  induction xs with
  | nil =>
    intro s s1 h
    simp only [StorageBackend.put_batch] at h
    cases h
    rfl
  | cons kv rest ih =>
    intro s s1 h
    obtain ⟨k, v⟩ := kv
    simp only [StorageBackend.put_batch] at h
    cases hp : put s k v with
    | mk s2 r =>
      rw [hp] at h
      cases r with
      | ok flag =>
        have hs := ih s2 s1 h
        simp [StorageBackend.applyPuts, hp, hs]
      | error e => simp at h

/-- C6: the default put_batch applies put to each entry one at a time in list
order; when every put of the prefix succeeds, the reached state is the fold of
the puts, and if the next put fails, the preceding puts remain applied, the
remaining entries are not attempted and that first error is returned. -/
theorem put_batch_is_sequential_puts {σ E : Type}
    (put : σ → EntryHash → ContextValue → σ × Except E Bool)
    (s s1 s2 : σ) (xs ys : List (EntryHash × ContextValue))
    (k : EntryHash) (v : ContextValue) (e : E)
    (hxs : StorageBackend.put_batch put s xs = (s1, .ok ())) :
    StorageBackend.put_batch put s (xs ++ ys) = StorageBackend.put_batch put s1 ys
  ∧ s1 = StorageBackend.applyPuts put s xs
  ∧ (put s1 k v = (s2, .error e) →
      StorageBackend.put_batch put s (xs ++ (k, v) :: ys) = (s2, .error e)) := by
  refine ⟨put_batch_append_ok put xs s s1 ys hxs,
    put_batch_ok_state put xs s s1 hxs, fun hfail => ?_⟩
  rw [put_batch_append_ok put xs s s1 ((k, v) :: ys) hxs]
  simp [StorageBackend.put_batch, hfail]

theorem put_batch_is_sequential_puts_witness :
    StorageBackend.put_batch samplePut [] ([(1, [10])] ++ (0, [20]) :: [(2, [30])])
      = ([(1, [10])], .error "key rejected") :=
  (put_batch_is_sequential_puts samplePut [] [(1, [10])] [(1, [10])]
      [(1, [10])] [(2, [30])] 0 [20] "key rejected" rfl).2.2 rfl

theorem process_requests_until_shutdown (idx : ContextIndex)
    (pre post : List ContextRequest) (h : ContextRequest.ShutdownCall ∉ pre) :
    IpcContextServer.process_context_requests idx
        (pre ++ ContextRequest.ShutdownCall :: post)
      = (pre.map (respond idx) ++ [ContextResponse.ShutdownResult],
         ServerExit.shutdownOk) := by
  induction pre with
  | nil => simp [IpcContextServer.process_context_requests]
  | cons a rest ih =>
    have ha : a ≠ ContextRequest.ShutdownCall := fun hc => h (by simp [hc])
    have hrest : ContextRequest.ShutdownCall ∉ rest :=
      fun hc => h (List.mem_cons_of_mem _ hc)
    cases a with
    | GetEntry hash =>
      simp [IpcContextServer.process_context_requests, respond, ih hrest]
    | ContainsEntry hash =>
      simp [IpcContextServer.process_context_requests, respond, ih hrest]
    | ShutdownCall => exact absurd rfl ha

/-- C2: for every incoming stream consisting of requests without ShutdownCall
followed by a ShutdownCall and anything after it, the server loop answers each
request before the ShutdownCall with exactly one response of the matching
variant, answers the ShutdownCall with ShutdownResult and exits the loop with
Ok, processing nothing after the ShutdownCall. -/
theorem server_one_response_per_request_until_shutdown (idx : ContextIndex)
    (pre post : List ContextRequest) (h : ContextRequest.ShutdownCall ∉ pre) :
    IpcContextServer.process_context_requests idx
        (pre ++ ContextRequest.ShutdownCall :: post)
      = (pre.map (respond idx) ++ [ContextResponse.ShutdownResult],
         ServerExit.shutdownOk)
  ∧ (pre.map (respond idx)).length = pre.length
  ∧ ∀ r ∈ pre, matchesVariant r (respond idx r) = true := by
  refine ⟨process_requests_until_shutdown idx pre post h, by simp, ?_⟩
  intro r _
  cases r <;> rfl

theorem server_one_response_per_request_until_shutdown_witness :
    IpcContextServer.process_context_requests sampleIndex
        [ContextRequest.GetEntry 1, ContextRequest.ContainsEntry 2,
         ContextRequest.ShutdownCall, ContextRequest.GetEntry 3]
      = ([ContextResponse.GetEntryResponse (.ok (some [1, 2, 3])),
          ContextResponse.ContainsEntryResponse (.ok false),
          ContextResponse.ShutdownResult], ServerExit.shutdownOk) :=
  (server_one_response_per_request_until_shutdown sampleIndex
      [ContextRequest.GetEntry 1, ContextRequest.ContainsEntry 2]
      [ContextRequest.GetEntry 3] (by decide)).1

/-- C3: in the client, an engine-side failure inside a matching response is
returned as a ContextError (GetEntryError or ContainsEntryError), a transport
failure on send or receive is returned as the IpcError category, and a
response of any variant other than the one matching the request is returned as
UnexpectedMessage, never silently ignored; the three error categories are
distinct constructors of ContextServiceError. -/
theorem client_error_discrimination :
    (∀ (e : IpcError) (recv : Except IpcError ContextResponse),
        IpcContextClient.get_entry (.error e) recv = .error (.IpcError e)
      ∧ IpcContextClient.contains_entry (.error e) recv = .error (.IpcError e))
  ∧ (∀ e : IpcError,
        IpcContextClient.get_entry (.ok ()) (.error e) = .error (.IpcError e)
      ∧ IpcContextClient.contains_entry (.ok ()) (.error e) = .error (.IpcError e))
  ∧ (∀ s : String,
        IpcContextClient.get_entry (.ok ())
            (.ok (.GetEntryResponse (.error s)))
          = .error (.ContextError (.GetEntryError s))
      ∧ IpcContextClient.contains_entry (.ok ())
            (.ok (.ContainsEntryResponse (.error s)))
          = .error (.ContextError (.ContainsEntryError s)))
  ∧ (∀ v : Option ContextValue,
        IpcContextClient.get_entry (.ok ()) (.ok (.GetEntryResponse (.ok v)))
          = .ok v)
  ∧ (∀ b : Bool,
        IpcContextClient.contains_entry (.ok ())
            (.ok (.ContainsEntryResponse (.ok b)))
          = .ok b)
  ∧ (∀ r : Except String Bool,
        IpcContextClient.get_entry (.ok ()) (.ok (.ContainsEntryResponse r))
          = .error (.UnexpectedMessage "ContainsEntryResponse"))
  ∧ (IpcContextClient.get_entry (.ok ()) (.ok .ShutdownResult)
        = .error (.UnexpectedMessage "ShutdownResult"))
  ∧ (∀ r : Except String (Option ContextValue),
        IpcContextClient.contains_entry (.ok ()) (.ok (.GetEntryResponse r))
          = .error (.UnexpectedMessage "GetEntryResponse"))
  ∧ (IpcContextClient.contains_entry (.ok ()) (.ok .ShutdownResult)
        = .error (.UnexpectedMessage "ShutdownResult"))
  ∧ (∀ (e : IpcError) (c : ContextError) (m : String),
        ContextServiceError.IpcError e ≠ ContextServiceError.ContextError c
      ∧ ContextServiceError.IpcError e ≠ ContextServiceError.UnexpectedMessage m
      ∧ ContextServiceError.ContextError c ≠ ContextServiceError.UnexpectedMessage m) := by
  refine ⟨fun e recv => ⟨rfl, rfl⟩, fun e => ⟨rfl, rfl⟩, fun s => ⟨rfl, rfl⟩,
    fun v => rfl, fun b => rfl, fun r => rfl, rfl, fun r => rfl, rfl, ?_⟩
  intro e c m
  refine ⟨?_, ?_, ?_⟩ <;> intro hcon <;> exact ContextServiceError.noConfusion hcon

theorem client_error_discrimination_witness :
    IpcContextClient.get_entry (.ok ())
        (.ok (.ContainsEntryResponse (.ok true)))
      = .error (.UnexpectedMessage "ContainsEntryResponse") :=
  client_error_discrimination.2.2.2.2.2.1 (.ok true)

theorem runAttempts_elapsed_le (arrival : Option Nat) (ds : List Nat) :
    ∀ elapsed : Nat, (runAttempts arrival ds elapsed).2 ≤ elapsed + ds.sum := by
  induction ds with
  | nil => intro elapsed; simp [runAttempts]
  | cons d rest ih =>
    intro elapsed
    cases arrival with
    | none =>
      have h := ih (elapsed + d)
      simp only [runAttempts, List.sum_cons] at h ⊢
      omega
    | some t =>
      simp only [runAttempts, List.sum_cons]
      split
      · simp only []
        omega
      · have h := ih (elapsed + d)
        simp only [List.sum_cons] at h
        omega

theorem runAttempts_none (ds : List Nat) :
    ∀ elapsed : Nat, runAttempts none ds elapsed = (false, elapsed + ds.sum) := by
  induction ds with
  | nil => intro elapsed; simp [runAttempts]
  | cons d rest ih =>
    intro elapsed
    simp only [runAttempts, ih (elapsed + d), List.sum_cons]
    congr 1
    omega

/-- C4: the client timeout constants are 30 seconds overall and 10 seconds per
receive attempt; every attempt duration is positive and at most 10 seconds and
the attempts together cover exactly the 30-second deadline; every get_entry
and contains_entry call returns within the 30-second deadline, and against an
unresponsive writer both calls fail with a transport timeout error instead of
blocking forever. -/
theorem bounded_receive_deadline (arrival : Option Nat) (resp : ContextResponse) :
    IpcContextClient.TIMEOUT = 30
  ∧ IpcContextListener.IO_TIMEOUT = 10
  ∧ (∀ d ∈ attemptDurations IpcContextClient.TIMEOUT IpcContextListener.IO_TIMEOUT,
        0 < d ∧ d ≤ IpcContextListener.IO_TIMEOUT)
  ∧ (attemptDurations IpcContextClient.TIMEOUT IpcContextListener.IO_TIMEOUT).sum
        = IpcContextClient.TIMEOUT
  ∧ (get_entry_call arrival resp).2 ≤ IpcContextClient.TIMEOUT
  ∧ (contains_entry_call arrival resp).2 ≤ IpcContextClient.TIMEOUT
  ∧ (get_entry_call none resp).1 = .error (.IpcError receiveTimeout)
  ∧ (contains_entry_call none resp).1 = .error (.IpcError receiveTimeout) := by
  have hsum : (attemptDurations IpcContextClient.TIMEOUT
      IpcContextListener.IO_TIMEOUT).sum = 30 := by decide
  have hle := runAttempts_elapsed_le arrival
    (attemptDurations IpcContextClient.TIMEOUT IpcContextListener.IO_TIMEOUT) 0
  rw [hsum] at hle
  refine ⟨rfl, rfl, by decide, hsum, ?_, ?_, ?_, ?_⟩
  · simpa [get_entry_call, try_receive] using hle
  · simpa [contains_entry_call, try_receive] using hle
  · simp [get_entry_call, try_receive, runAttempts_none, IpcContextClient.get_entry]
  · simp [contains_entry_call, try_receive, runAttempts_none,
      IpcContextClient.contains_entry]

theorem bounded_receive_deadline_witness :
    (get_entry_call none ContextResponse.ShutdownResult).2 ≤ IpcContextClient.TIMEOUT
  ∧ (get_entry_call none ContextResponse.ShutdownResult).1
      = .error (.IpcError receiveTimeout) :=
  ⟨(bounded_receive_deadline none ContextResponse.ShutdownResult).2.2.2.2.1,
   (bounded_receive_deadline none ContextResponse.ShutdownResult).2.2.2.2.2.2.1⟩

theorem pollForSocket_le (existsAt : Nat → Bool) :
    ∀ n t : Nat, IpcContextClient.pollForSocket existsAt n t ≤ t + n := by
  intro n
  induction n with
  | zero => intro t; simp [IpcContextClient.pollForSocket]
  | succ n ih =>
    intro t
    simp only [IpcContextClient.pollForSocket]
    split
    · omega
    · have h := ih (t + 1)
      omega

theorem pollForSocket_never (existsAt : Nat → Bool)
    (hnever : ∀ t, existsAt t = false) :
    ∀ n t : Nat, IpcContextClient.pollForSocket existsAt n t = t + n := by
  intro n
  induction n with
  | zero => intro t; simp [IpcContextClient.pollForSocket]
  | succ n ih =>
    intro t
    have h := ih (t + 1)
    simp [IpcContextClient.pollForSocket, hnever t]
    omega

/-- C5: try_connect polls for the endpoint for at most 5 seconds (a bounded
number of one-second polls, never an unbounded wait); when the endpoint never
appears it fails with a connection error after the full 5-second window, when
the handshake fails it fails with a connection error, and it never returns
success without the endpoint existing at connection time together with a
successful handshake. -/
theorem try_connect_bounded_and_sound (existsAt : Nat → Bool) (handshakeOk : Bool) :
    (IpcContextClient.try_connect existsAt handshakeOk).2 ≤ 5
  ∧ ((∀ t, existsAt t = false) →
      IpcContextClient.try_connect existsAt handshakeOk
        = (.error IpcContextClient.connectionRefused, 5))
  ∧ (handshakeOk = false →
      (IpcContextClient.try_connect existsAt handshakeOk).1
        = .error IpcContextClient.connectionRefused)
  ∧ ((IpcContextClient.try_connect existsAt handshakeOk).1 = .ok () →
      existsAt (IpcContextClient.try_connect existsAt handshakeOk).2 = true
        ∧ handshakeOk = true) := by
  refine ⟨?_, ?_, ?_, ?_⟩
  · simpa [IpcContextClient.try_connect] using pollForSocket_le existsAt 5 0
  · intro hnever
    simp [IpcContextClient.try_connect, IpcContextClient.clientConnect,
      pollForSocket_never existsAt hnever, hnever]
  · intro hh
    simp [IpcContextClient.try_connect, IpcContextClient.clientConnect, hh]
  · intro hok
    simp only [IpcContextClient.try_connect, IpcContextClient.clientConnect] at hok ⊢
    by_cases hc : existsAt (IpcContextClient.pollForSocket existsAt 5 0) && handshakeOk
    · simp only [Bool.and_eq_true] at hc
      exact ⟨hc.1, hc.2⟩
    · simp [hc] at hok

theorem try_connect_bounded_and_sound_witness :
    IpcContextClient.try_connect (fun _ => false) true
      = (.error IpcContextClient.connectionRefused, 5)
  ∧ (IpcContextClient.try_connect (fun _ => false) true).2 ≤ 5 :=
  ⟨(try_connect_bounded_and_sound (fun _ => false) true).2.1 (fun _ => rfl),
   (try_connect_bounded_and_sound (fun _ => false) true).1⟩
